import Mathlib

/-!
Verification of the eM4 Modbus-TCP device driver (`em4_modbus.py`).

The driver is embedded shallowly.  Transport I/O is modelled by a replay
oracle: a driver computation consumes a list of pending transport
responses (one `Option (List Nat)` per issued request, `none` meaning the
transport reported an error) and records the trace of requests it issued.
Every execution of the Python driver against any transport corresponds to
one choice of response list.
-/

namespace EM4

/-- Raw register words returned by one transport read (pymodbus `registers`). -/
abbrev Regs := List Nat

/-- Pending transport responses, consumed in order; `none` = transport error. -/
abbrev Responses := List (Option Regs)

/-- A transport request issued by the driver. -/
inductive Req where
  | readReq (addr : Int) (count : Nat)
  | writeReq (addr : Int) (vals : List Int)
deriving DecidableEq, Repr

/-- Error taxonomy of the driver: `ValueError` for outlet index, range and
installation-limit violations, Modbus/connection exceptions as `comm`. -/
inductive Em4Error where
  | invalidOutlet
  | outOfRange (amps : Rat)
  | exceedsLimit (amps limit : Rat)
  | comm (addr : Int)
deriving DecidableEq, Repr

/-- Driver computations: thread the pending responses, return a result or a
raised error, and record the trace of issued transport requests. -/
def DrvM (α : Type) : Type :=
  Responses → Except Em4Error α × Responses × List Req

def DrvM.pure (a : α) : DrvM α := fun rs => (Except.ok a, rs, [])

def DrvM.bind (m : DrvM α) (f : α → DrvM β) : DrvM β := fun rs =>
  match m rs with
  | (Except.error e, rs1, tr) => (Except.error e, rs1, tr)
  | (Except.ok a, rs1, tr) =>
      ((f a rs1).1, (f a rs1).2.1, tr ++ (f a rs1).2.2)

instance : Monad DrvM where
  pure := DrvM.pure
  bind := DrvM.bind

@[simp] theorem bind_def (m : DrvM α) (f : α → DrvM β) :
    m >>= f = DrvM.bind m f := rfl

@[simp] theorem pure_def (a : α) : (Pure.pure a : DrvM α) = DrvM.pure a := rfl

/-- Raising an exception (`raise ValueError` / `raise ModbusException`). -/
def drvThrow (e : Em4Error) : DrvM α := fun rs => (Except.error e, rs, [])

/-- Lift a pure `Except` computation (no I/O). -/
def liftExcept (x : Except Em4Error α) : DrvM α := fun rs => (x, rs, [])

/-- Issue one `read_holding_registers(addr, count)` call: consume the next
pending response; a missing or errored response raises a Modbus error. -/
def issueRead (addr : Int) (count : Nat) : DrvM Regs := fun rs =>
  match rs with
  | [] => (Except.error (.comm addr), [], [.readReq addr count])
  | none :: rest => (Except.error (.comm addr), rest, [.readReq addr count])
  | some regs :: rest => (Except.ok regs, rest, [.readReq addr count])

/-- Issue one `write_registers(addr, vals)` call. -/
def issueWrite (addr : Int) (vals : List Int) : DrvM Unit := fun rs =>
  match rs with
  | [] => (Except.error (.comm addr), [], [.writeReq addr vals])
  | none :: rest => (Except.error (.comm addr), rest, [.writeReq addr vals])
  | some _ :: rest => (Except.ok (), rest, [.writeReq addr vals])

/-- `EM4ModbusClient.read_u16`: read a single 16-bit register.  The source
fails on `result.isError() or not result.registers` (an *empty* register
list) and returns `result.registers[0]`. -/
def read_u16 (address : Int) : DrvM Nat := do
  let regs ← issueRead address 1
  match regs with
  | [] => drvThrow (.comm address)
  | r :: _ => DrvM.pure r

/-- `EM4ModbusClient.read_u32_pair`: read two consecutive registers as one
big-endian 32-bit value; fails unless exactly 2 registers come back. -/
def read_u32_pair (address : Int) : DrvM Nat := do
  let regs ← issueRead address 2
  match regs with
  | [hi, lo] => DrvM.pure ((hi <<< 16) ||| lo)
  | _ => drvThrow (.comm address)

/-- `EM4ModbusClient.read_three_u32`: read three consecutive big-endian
32-bit values (6 registers); fails unless exactly 6 registers come back. -/
def read_three_u32 (address : Int) : DrvM (Nat × Nat × Nat) := do
  let regs ← issueRead address 6
  match regs with
  | [a, b, c, d, e, f] =>
      DrvM.pure ((a <<< 16) ||| b, (c <<< 16) ||| d, (e <<< 16) ||| f)
  | _ => drvThrow (.comm address)

/-- `EM4ModbusClient.write_u16`: write one register, failing on a transport
error. -/
def write_u16 (address : Int) (value : Int) : DrvM Unit :=
  issueWrite address [value]

/-! ## Register map constants (`em4_modbus.py` lines 70-85) -/

def PRODUCT_BASE : Int := 0x0100
def OUTLET_BASE : Int := 0x3000
def IRATED_OFFSET : Int := 0x23
def IDEFAULT_OFFSET : Int := 0x24
def CURRENTS_OFFSET : Int := 0x01
def VOLTAGES_OFFSET : Int := 0x07
def POWER_OFFSET : Int := 0x0D
def ENERGY_OFFSET : Int := 0x0F
def STATUS_OFFSET : Int := 0x31
def ICMAX_OFFSET : Int := 0x32
def IC_OFFSET : Int := 0x33

/-- `EM4ModbusClient.get_outlet_base`: base address for a 1-indexed outlet;
`outlet < 1` raises `ValueError`. -/
def get_outlet_base (outlet : Int) : Except Em4Error Int :=
  if outlet < 1 then Except.error .invalidOutlet
  else Except.ok (OUTLET_BASE + 0x0100 * (outlet - 1))

/-! ## Status table (`STATUS_CODES`, lines 52-68) -/

/-- The `STATUS_CODES` dictionary. -/
def STATUS_CODES (code : Nat) : Option String :=
  if code = 0x00A0 then some "Outlet blocked, EV is recognised"
  else if code = 0x00A1 then some "Outlet is waiting for EV"
  else if code = 0x00A2 then some "Outlet reserved"
  else if code = 0x00B0 then some "EV recognised, authentication failed"
  else if code = 0x00B1 then some "EV recognised, authentication"
  else if code = 0x00B2 then some "Outlet can provide energy for charging"
  else if code = 0x00B3 then some "EV has ended or interrupted charging"
  else if code = 0x00C2 then some "Outlet provides energy for charging (request by EV)"
  else if code = 0x00E0 then some "Outlet blocked, EV is not recognised"
  else if code = 0x00E2 then some "Outlet in boot process"
  else if 0x00F0 ≤ code ∧ code ≤ 0x00FF then some "Error"
  else none

/-- Upper-case hexadecimal rendering of a register value, zero-padded to
width 4: the Python format `"0x{code:04X}"` without the `"0x"`. -/
def hex4 (n : Nat) : String :=
  let ds := (Nat.toDigits 16 n).map Char.toUpper
  String.mk (List.replicate (4 - ds.length) '0' ++ ds)

/-- The fallback text for a status code missing from the table:
`f"Unknown (0x{status_raw:04X})"`. -/
def unknownStatus (code : Nat) : String :=
  "Unknown (0x" ++ hex4 code ++ ")"

/-- `STATUS_CODES.get(status_raw, f"Unknown (0x{status_raw:04X})")`. -/
def statusTextOf (code : Nat) : String :=
  (STATUS_CODES code).getD (unknownStatus code)

/-- The advisory status classification printed by `set_icmax`
(lines 313-321): waiting-for-EV, blocked, booting, error range, other. -/
inductive StatusClass where
  | waitingForEV
  | blocked
  | booting
  | errorState
  | other
deriving DecidableEq, Repr

def classify_status (status_raw : Nat) : StatusClass :=
  if status_raw = 0x00A1 then .waitingForEV
  else if status_raw ∈ ([0x00A0, 0x00E0] : List Nat) then .blocked
  else if status_raw = 0x00E2 then .booting
  else if status_raw &&& 0x00F0 = 0x00F0 then .errorState
  else .other

/-! ## Rounding: Python `round` (banker's rounding) -/

/-- Python's `round` on a real value: round half to even. -/
def pyround (q : Rat) : Int :=
  let f : Int := ⌊q⌋
  let r : Rat := q - f
  if r < 1/2 then f
  else if 1/2 < r then f + 1
  else if f % 2 = 0 then f else f + 1

/-! ## Metrics snapshot (`read_metrics` result dictionary) -/

structure MetricsSnapshot where
  outlet : Int
  status_code : Nat
  status_text : String
  ic_amps : Rat
  icmax_amps : Rat
  idefault_amps : Rat
  irated_amps : Rat
  phase_currents : Rat × Rat × Rat
  phase_voltages : Rat × Rat × Rat
  power_kw : Rat
  energy_kwh : Rat
deriving DecidableEq, Repr

/-- `EM4ModbusClient.read_metrics` (lines 224-267). -/
def read_metrics (outlet : Int) : DrvM MetricsSnapshot := do
  let outlet_base ← liftExcept (get_outlet_base outlet)
  let irated_raw ← read_u16 (PRODUCT_BASE + IRATED_OFFSET)
  let idefault_raw ← read_u16 (PRODUCT_BASE + IDEFAULT_OFFSET)
  let status_raw ← read_u16 (outlet_base + STATUS_OFFSET)
  let icmax_raw ← read_u16 (outlet_base + ICMAX_OFFSET)
  let ic_raw ← read_u16 (outlet_base + IC_OFFSET)
  let currs ← read_three_u32 (outlet_base + CURRENTS_OFFSET)
  let volts ← read_three_u32 (outlet_base + VOLTAGES_OFFSET)
  let power_raw ← read_u32_pair (outlet_base + POWER_OFFSET)
  let energy_raw ← read_u32_pair (outlet_base + ENERGY_OFFSET)
  DrvM.pure {
    outlet := outlet
    status_code := status_raw
    status_text := statusTextOf status_raw
    ic_amps := (ic_raw : Rat) / 10
    icmax_amps := (icmax_raw : Rat) / 10
    idefault_amps := (idefault_raw : Rat) / 10
    irated_amps := (irated_raw : Rat) / 10
    phase_currents := ((currs.1 : Rat) / 10, (currs.2.1 : Rat) / 10, (currs.2.2 : Rat) / 10)
    phase_voltages := ((volts.1 : Rat) / 10, (volts.2.1 : Rat) / 10, (volts.2.2 : Rat) / 10)
    power_kw := (power_raw : Rat) / 1000
    energy_kwh := (energy_raw : Rat) / 100 }

/-- `EM4ModbusClient.set_icmax` (lines 269-357). -/
def set_icmax (outlet : Int) (amps : Rat) : DrvM Rat :=
  if amps ≠ 0 ∧ amps < 6 then drvThrow (.outOfRange amps)
  else if amps > 32 then drvThrow (.outOfRange amps)
  else do
    let outlet_base ← liftExcept (get_outlet_base outlet)
    let _irated_raw ← read_u16 (PRODUCT_BASE + IRATED_OFFSET)
    let idefault_raw ← read_u16 (PRODUCT_BASE + IDEFAULT_OFFSET)
    let idefault_amps : Rat := (idefault_raw : Rat) / 10
    let status_raw ← read_u16 (outlet_base + STATUS_OFFSET)
    let _current_icmax_raw ← read_u16 (outlet_base + ICMAX_OFFSET)
    let _current_ic_raw ← read_u16 (outlet_base + IC_OFFSET)
    if amps > idefault_amps then drvThrow (.exceedsLimit amps idefault_amps)
    else do
      let icmax_raw : Int := pyround (amps * 10)
      write_u16 (outlet_base + ICMAX_OFFSET) icmax_raw
      let confirmed_raw ← read_u16 (outlet_base + ICMAX_OFFSET)
      let confirmed_amps : Rat := (confirmed_raw : Rat) / 10
      if confirmed_amps ≠ amps ∧ status_raw ∈ ([0x00B1, 0x00B2, 0x00C1, 0x00C2] : List Nat) then do
        write_u16 (outlet_base + ICMAX_OFFSET) icmax_raw
        let confirmed_raw2 ← read_u16 (outlet_base + ICMAX_OFFSET)
        DrvM.pure ((confirmed_raw2 : Rat) / 10)
      else
        DrvM.pure confirmed_amps

/-- The final result classification printed by `set_icmax` (lines 346-356):
exact confirmation, expected zero while waiting for an EV, or divergence. -/
inductive Outcome where
  | exact
  | deferredZero
  | divergent
deriving DecidableEq, Repr

def classify_outcome (confirmed_amps amps : Rat) (status_raw : Nat) : Outcome :=
  if confirmed_amps = amps then .exact
  else if confirmed_amps = 0 ∧ amps > 0 ∧ status_raw = 0x00A1 then .deferredZero
  else .divergent

/-! ## Register pair decoding (`read_u32_pair`, lines 167-169) -/

/-- Big-endian combination of two register words: `(hi << 16) | lo`,
the high word first, as in `read_u32_pair` and `read_three_u32`. -/
def combine_u32 (hi lo : Nat) : Nat := (hi <<< 16) ||| lo

/-- Spec-level `Decode32`: combine two words big-endian, divide by scale
(the division the call sites of `read_u32_pair` perform, e.g.
`power_raw / 1000.0`). -/
def decode32 (hi lo : Nat) (scale : Rat) : Rat := (combine_u32 hi lo : Rat) / scale

/-! ## Trace measures and predicates -/

/-- Number of write requests recorded in a trace. -/
def writesIn (tr : List Req) : Nat :=
  tr.countP fun r => match r with
    | .writeReq _ _ => true
    | _ => false

/-- Every run of `m` records at most `n` write requests. -/
def WritesLe (m : DrvM α) (n : Nat) : Prop :=
  ∀ rs, writesIn (m rs).2.2 ≤ n

/-- All errors any run of `m` can raise satisfy `P`. -/
def ErrWithin (m : DrvM α) (P : Em4Error → Prop) : Prop :=
  ∀ rs e, (m rs).1 = Except.error e → P e

/-- `m` always issues a prefix of the request list `L`, and issues exactly
`L` whenever it succeeds. -/
def TraceSpec (m : DrvM α) (L : List Req) : Prop :=
  ∀ rs, (∃ t, (m rs).2.2 ++ t = L) ∧ (∀ a, (m rs).1 = Except.ok a → (m rs).2.2 = L)

/-- The base address `get_outlet_base` computes for a valid outlet. -/
def outletBaseAddr (outlet : Int) : Int := OUTLET_BASE + 0x0100 * (outlet - 1)

/-- The fixed sequence of nine transport reads `read_metrics` performs. -/
def metricsReadSequence (outlet : Int) : List Req :=
  [.readReq (PRODUCT_BASE + IRATED_OFFSET) 1,
   .readReq (PRODUCT_BASE + IDEFAULT_OFFSET) 1,
   .readReq (outletBaseAddr outlet + STATUS_OFFSET) 1,
   .readReq (outletBaseAddr outlet + ICMAX_OFFSET) 1,
   .readReq (outletBaseAddr outlet + IC_OFFSET) 1,
   .readReq (outletBaseAddr outlet + CURRENTS_OFFSET) 6,
   .readReq (outletBaseAddr outlet + VOLTAGES_OFFSET) 6,
   .readReq (outletBaseAddr outlet + POWER_OFFSET) 2,
   .readReq (outletBaseAddr outlet + ENERGY_OFFSET) 2]

/-- The five context reads `set_icmax` performs before the bound check. -/
def icmaxContextReads (outlet : Int) : List Req :=
  [.readReq (PRODUCT_BASE + IRATED_OFFSET) 1,
   .readReq (PRODUCT_BASE + IDEFAULT_OFFSET) 1,
   .readReq (outletBaseAddr outlet + STATUS_OFFSET) 1,
   .readReq (outletBaseAddr outlet + ICMAX_OFFSET) 1,
   .readReq (outletBaseAddr outlet + IC_OFFSET) 1]

/-! ## Execution lemmas: running one monadic step -/

@[simp] theorem bind_run (m : DrvM α) (f : α → DrvM β) (rs : Responses) :
    DrvM.bind m f rs =
      match m rs with
      | (Except.error e, rs1, tr) => (Except.error e, rs1, tr)
      | (Except.ok a, rs1, tr) =>
          ((f a rs1).1, (f a rs1).2.1, tr ++ (f a rs1).2.2) := rfl

@[simp] theorem pure_run (a : α) (rs : Responses) :
    DrvM.pure a rs = (Except.ok a, rs, []) := rfl

@[simp] theorem drvThrow_run (e : Em4Error) (rs : Responses) :
    (drvThrow e : DrvM α) rs = (Except.error e, rs, []) := rfl

@[simp] theorem liftExcept_ok_bind (a : α) (f : α → DrvM β) :
    DrvM.bind (liftExcept (Except.ok a)) f = f a := rfl

@[simp] theorem liftExcept_error_run (e : Em4Error) (rs : Responses) :
    (liftExcept (Except.error e) : DrvM α) rs = (Except.error e, rs, []) := rfl

@[simp] theorem liftExcept_run (x : Except Em4Error α) (rs : Responses) :
    liftExcept x rs = (x, rs, []) := rfl

@[simp] theorem read_u16_run_ok (a : Int) (r : Nat) (tl : Regs) (rest : Responses) :
    read_u16 a (some (r :: tl) :: rest) = (Except.ok r, rest, [.readReq a 1]) := rfl

@[simp] theorem read_u16_run_empty (a : Int) (rest : Responses) :
    read_u16 a (some [] :: rest) = (Except.error (.comm a), rest, [.readReq a 1]) := rfl

@[simp] theorem read_u16_run_none (a : Int) (rest : Responses) :
    read_u16 a (none :: rest) = (Except.error (.comm a), rest, [.readReq a 1]) := rfl

@[simp] theorem read_u16_run_nil (a : Int) :
    read_u16 a [] = (Except.error (.comm a), [], [.readReq a 1]) := rfl

@[simp] theorem write_u16_run_some (a : Int) (v : Int) (regs : Regs) (rest : Responses) :
    write_u16 a v (some regs :: rest) = (Except.ok (), rest, [.writeReq a [v]]) := rfl

@[simp] theorem write_u16_run_none (a : Int) (v : Int) (rest : Responses) :
    write_u16 a v (none :: rest) = (Except.error (.comm a), rest, [.writeReq a [v]]) := rfl

@[simp] theorem write_u16_run_nil (a : Int) (v : Int) :
    write_u16 a v [] = (Except.error (.comm a), [], [.writeReq a [v]]) := rfl

/-! ## Trace lemmas -/

theorem writesIn_append (a b : List Req) :
    writesIn (a ++ b) = writesIn a + writesIn b :=
  List.countP_append _ _ _

@[simp] theorem writesIn_nil : writesIn [] = 0 := rfl

@[simp] theorem writesIn_cons_read (a : Int) (c : Nat) (tr : List Req) :
    writesIn (.readReq a c :: tr) = writesIn tr := by
  simp [writesIn, List.countP_cons]

@[simp] theorem writesIn_cons_write (a : Int) (v : List Int) (tr : List Req) :
    writesIn (.writeReq a v :: tr) = writesIn tr + 1 := by
  simp [writesIn, List.countP_cons]

theorem writesLe_bind {m : DrvM α} {f : α → DrvM β} {a b n : Nat}
    (hm : WritesLe m a) (hf : ∀ x, WritesLe (f x) b) (h : a + b ≤ n) :
    WritesLe (m >>= f) n := by
  intro rs
  have hm' := hm rs
  simp only [bind_def, bind_run]
  rcases hres : m rs with ⟨r, rs1, tr⟩
  rw [hres] at hm'
  cases r with
  | error e => exact le_trans hm' (by omega)
  | ok x =>
      have hm2 : writesIn tr ≤ a := by simpa using hm'
      have hf' := hf x rs1
      simp only [writesIn_append]
      omega

theorem writesLe_mono {m : DrvM α} {a n : Nat} (h : WritesLe m a) (han : a ≤ n) :
    WritesLe m n := fun rs => le_trans (h rs) han

theorem writesLe_ite (c : Prop) [Decidable c] {m m' : DrvM α} {n : Nat}
    (h1 : WritesLe m n) (h2 : WritesLe m' n) :
    WritesLe (if c then m else m') n := by
  by_cases h : c
  · simpa [h] using h1
  · simpa [h] using h2

theorem writesLe_pure (a : α) : WritesLe (DrvM.pure a) 0 := by
  intro rs; simp

theorem writesLe_drvThrow (e : Em4Error) : WritesLe (drvThrow e : DrvM α) 0 := by
  intro rs; simp

theorem writesLe_liftExcept (x : Except Em4Error α) : WritesLe (liftExcept x) 0 := by
  intro rs; simp [liftExcept, writesIn]

theorem writesLe_read_u16 (a : Int) : WritesLe (read_u16 a) 0 := by
  intro rs
  rcases rs with _ | ⟨o, rest⟩
  · simp
  · rcases o with _ | regs
    · simp
    · rcases regs with _ | ⟨r, tl⟩ <;> simp

theorem writesLe_read_u32_pair (a : Int) : WritesLe (read_u32_pair a) 0 := by
  intro rs
  rcases rs with _ | ⟨o, rest⟩
  · simp [read_u32_pair, issueRead]
  · rcases o with _ | regs
    · simp [read_u32_pair, issueRead]
    · simp only [read_u32_pair, bind_def, bind_run, issueRead]
      rcases regs with _ | ⟨r1, _ | ⟨r2, _ | tl⟩⟩ <;> simp

theorem writesLe_read_three_u32 (a : Int) : WritesLe (read_three_u32 a) 0 := by
  intro rs
  rcases rs with _ | ⟨o, rest⟩
  · simp [read_three_u32, issueRead]
  · rcases o with _ | regs
    · simp [read_three_u32, issueRead]
    · simp only [read_three_u32, bind_def, bind_run, issueRead]
      rcases regs with _ | ⟨r1, _ | ⟨r2, _ | ⟨r3, _ | ⟨r4, _ | ⟨r5, _ | ⟨r6, _ | tl⟩⟩⟩⟩⟩⟩ <;> simp

theorem writesLe_write_u16 (a : Int) (v : Int) : WritesLe (write_u16 a v) 1 := by
  intro rs
  rcases rs with _ | ⟨o, rest⟩
  · simp
  · rcases o with _ | regs <;> simp

/-- The trace of a bind extends the trace of its first component. -/
theorem writesIn_bind_ge (m : DrvM α) (f : α → DrvM β) (rs : Responses) :
    writesIn (m rs).2.2 ≤ writesIn (DrvM.bind m f rs).2.2 := by
  simp only [bind_run]
  rcases hres : m rs with ⟨r, rs1, tr⟩
  cases r with
  | error e => simp
  | ok x => simp [writesIn_append]

theorem errWithin_bind {m : DrvM α} {f : α → DrvM β} {P : Em4Error → Prop}
    (hm : ErrWithin m P) (hf : ∀ x, ErrWithin (f x) P) :
    ErrWithin (m >>= f) P := by
  intro rs e
  simp only [bind_def, bind_run]
  rcases hres : m rs with ⟨r, rs1, tr⟩
  cases r with
  | error e' =>
      intro h
      have : e' = e := by simpa using h
      exact this ▸ hm rs e' (by simp [hres])
  | ok x =>
      intro h
      exact hf x rs1 e (by simpa using h)

theorem errWithin_ite (c : Prop) [Decidable c] {m m' : DrvM α} {P : Em4Error → Prop}
    (h1 : ErrWithin m P) (h2 : ErrWithin m' P) :
    ErrWithin (if c then m else m') P := by
  by_cases h : c
  · simpa [h] using h1
  · simpa [h] using h2

theorem errWithin_pure (a : α) (P : Em4Error → Prop) : ErrWithin (DrvM.pure a) P := by
  intro rs e h
  simp at h

theorem errWithin_drvThrow {e : Em4Error} {P : Em4Error → Prop} (h : P e) :
    ErrWithin (drvThrow e : DrvM α) P := by
  intro rs e' h'
  have : e = e' := by simpa using h'
  exact this ▸ h

theorem errWithin_read_u16 {a : Int} {P : Em4Error → Prop} (h : P (.comm a)) :
    ErrWithin (read_u16 a) P := by
  intro rs e
  rcases rs with _ | ⟨o, rest⟩
  · intro h'; have : Em4Error.comm a = e := by simpa using h'
    exact this ▸ h
  · rcases o with _ | regs
    · intro h'; have : Em4Error.comm a = e := by simpa using h'
      exact this ▸ h
    · rcases regs with _ | ⟨r, tl⟩
      · intro h'; have : Em4Error.comm a = e := by simpa using h'
        exact this ▸ h
      · intro h'; simp at h'

theorem errWithin_read_u32_pair {a : Int} {P : Em4Error → Prop} (h : P (.comm a)) :
    ErrWithin (read_u32_pair a) P := by
  intro rs e
  rcases rs with _ | ⟨o, rest⟩
  · intro h'
    have : Em4Error.comm a = e := by simpa [read_u32_pair, issueRead] using h'
    exact this ▸ h
  · rcases o with _ | regs
    · intro h'
      have : Em4Error.comm a = e := by simpa [read_u32_pair, issueRead] using h'
      exact this ▸ h
    · simp only [read_u32_pair, bind_def, bind_run, issueRead]
      rcases regs with _ | ⟨r1, _ | ⟨r2, _ | tl⟩⟩ <;> intro h' <;>
        first
          | (have : Em4Error.comm a = e := by simpa using h'
             exact this ▸ h)
          | simp at h'

theorem errWithin_read_three_u32 {a : Int} {P : Em4Error → Prop} (h : P (.comm a)) :
    ErrWithin (read_three_u32 a) P := by
  intro rs e
  rcases rs with _ | ⟨o, rest⟩
  · intro h'
    have : Em4Error.comm a = e := by simpa [read_three_u32, issueRead] using h'
    exact this ▸ h
  · rcases o with _ | regs
    · intro h'
      have : Em4Error.comm a = e := by simpa [read_three_u32, issueRead] using h'
      exact this ▸ h
    · simp only [read_three_u32, bind_def, bind_run, issueRead]
      rcases regs with _ | ⟨r1, _ | ⟨r2, _ | ⟨r3, _ | ⟨r4, _ | ⟨r5, _ | ⟨r6, _ | tl⟩⟩⟩⟩⟩⟩ <;>
        intro h' <;>
        first
          | (have : Em4Error.comm a = e := by simpa using h'
             exact this ▸ h)
          | simp at h'

theorem errWithin_write_u16 {a : Int} {v : Int} {P : Em4Error → Prop} (h : P (.comm a)) :
    ErrWithin (write_u16 a v) P := by
  intro rs e
  rcases rs with _ | ⟨o, rest⟩
  · intro h'; have : Em4Error.comm a = e := by simpa using h'
    exact this ▸ h
  · rcases o with _ | regs
    · intro h'; have : Em4Error.comm a = e := by simpa using h'
      exact this ▸ h
    · intro h'; simp at h'

theorem traceSpec_bind {m : DrvM α} {f : α → DrvM β} {L1 L2 L : List Req}
    (hm : TraceSpec m L1) (hf : ∀ x, TraceSpec (f x) L2) (hL : L1 ++ L2 = L) :
    TraceSpec (m >>= f) L := by
  intro rs
  simp only [bind_def, bind_run]
  rcases hres : m rs with ⟨r, rs1, tr⟩
  have hm' := hm rs
  rw [hres] at hm'
  cases r with
  | error e =>
      refine ⟨?_, ?_⟩
      · rcases hm'.1 with ⟨t, ht⟩
        exact ⟨t ++ L2, by
          simp only at ht ⊢
          rw [← hL, ← ht]
          simp⟩
      · intro a h
        simp at h
  | ok x =>
      have htr : tr = L1 := hm'.2 x rfl
      have hf' := hf x rs1
      refine ⟨?_, ?_⟩
      · rcases hf'.1 with ⟨t, ht⟩
        exact ⟨t, by
          simp only
          rw [List.append_assoc, ht, htr, hL]⟩
      · intro a h
        simp only
        have hok : (f x rs1).1 = Except.ok a := by simpa using h
        rw [hf'.2 a hok, htr, hL]

theorem traceSpec_pure (a : α) : TraceSpec (DrvM.pure a) [] := by
  intro rs
  exact ⟨⟨[], rfl⟩, fun _ _ => rfl⟩

theorem traceSpec_drvThrow (e : Em4Error) : TraceSpec (drvThrow e : DrvM α) [] := by
  intro rs
  refine ⟨⟨[], rfl⟩, ?_⟩
  intro a h
  simp at h

theorem traceSpec_read_u16 (a : Int) : TraceSpec (read_u16 a) [.readReq a 1] := by
  intro rs
  rcases rs with _ | ⟨o, rest⟩
  · exact ⟨⟨[], rfl⟩, by intro x h; simp at h⟩
  · rcases o with _ | regs
    · exact ⟨⟨[], rfl⟩, by intro x h; simp at h⟩
    · rcases regs with _ | ⟨r, tl⟩
      · exact ⟨⟨[], rfl⟩, by intro x h; simp at h⟩
      · exact ⟨⟨[], rfl⟩, fun x h => rfl⟩

theorem traceSpec_read_u32_pair (a : Int) : TraceSpec (read_u32_pair a) [.readReq a 2] := by
  intro rs
  rcases rs with _ | ⟨o, rest⟩
  · exact ⟨⟨[], rfl⟩, by intro x h; simp [read_u32_pair, issueRead] at h⟩
  · rcases o with _ | regs
    · exact ⟨⟨[], rfl⟩, by intro x h; simp [read_u32_pair, issueRead] at h⟩
    · simp only [read_u32_pair, bind_def, bind_run, issueRead]
      rcases regs with _ | ⟨r1, _ | ⟨r2, _ | tl⟩⟩ <;>
        exact ⟨⟨[], rfl⟩, by intro x h; first | rfl | simp at h⟩

theorem traceSpec_read_three_u32 (a : Int) : TraceSpec (read_three_u32 a) [.readReq a 6] := by
  intro rs
  rcases rs with _ | ⟨o, rest⟩
  · exact ⟨⟨[], rfl⟩, by intro x h; simp [read_three_u32, issueRead] at h⟩
  · rcases o with _ | regs
    · exact ⟨⟨[], rfl⟩, by intro x h; simp [read_three_u32, issueRead] at h⟩
    · simp only [read_three_u32, bind_def, bind_run, issueRead]
      rcases regs with _ | ⟨r1, _ | ⟨r2, _ | ⟨r3, _ | ⟨r4, _ | ⟨r5, _ | ⟨r6, _ | tl⟩⟩⟩⟩⟩⟩ <;>
        exact ⟨⟨[], rfl⟩, by intro x h; first | rfl | simp at h⟩

/-! ## Characterization of `read_metrics` -/

theorem get_outlet_base_valid {outlet : Int} (h : ¬ outlet < 1) :
    get_outlet_base outlet = Except.ok (outletBaseAddr outlet) := by
  simp [get_outlet_base, outletBaseAddr, h]

theorem read_metrics_invalid {outlet : Int} (h : outlet < 1) (rs : Responses) :
    read_metrics outlet rs = (Except.error .invalidOutlet, rs, []) := by
  simp [read_metrics, get_outlet_base, h]

theorem read_metrics_traceSpec {outlet : Int} (h : ¬ outlet < 1) :
    TraceSpec (read_metrics outlet) (metricsReadSequence outlet) := by
  rw [show metricsReadSequence outlet =
      [Req.readReq (PRODUCT_BASE + IRATED_OFFSET) 1] ++
      ([Req.readReq (PRODUCT_BASE + IDEFAULT_OFFSET) 1] ++
      ([Req.readReq (outletBaseAddr outlet + STATUS_OFFSET) 1] ++
      ([Req.readReq (outletBaseAddr outlet + ICMAX_OFFSET) 1] ++
      ([Req.readReq (outletBaseAddr outlet + IC_OFFSET) 1] ++
      ([Req.readReq (outletBaseAddr outlet + CURRENTS_OFFSET) 6] ++
      ([Req.readReq (outletBaseAddr outlet + VOLTAGES_OFFSET) 6] ++
      ([Req.readReq (outletBaseAddr outlet + POWER_OFFSET) 2] ++
      ([Req.readReq (outletBaseAddr outlet + ENERGY_OFFSET) 2] ++ ([] : List Req)))))))))
      from by simp [metricsReadSequence]]
  unfold read_metrics
  simp only [bind_def, get_outlet_base_valid h, liftExcept_ok_bind]
  refine traceSpec_bind (traceSpec_read_u16 _) (fun _ => ?_) rfl
  refine traceSpec_bind (traceSpec_read_u16 _) (fun _ => ?_) rfl
  refine traceSpec_bind (traceSpec_read_u16 _) (fun _ => ?_) rfl
  refine traceSpec_bind (traceSpec_read_u16 _) (fun _ => ?_) rfl
  refine traceSpec_bind (traceSpec_read_u16 _) (fun _ => ?_) rfl
  refine traceSpec_bind (traceSpec_read_three_u32 _) (fun _ => ?_) rfl
  refine traceSpec_bind (traceSpec_read_three_u32 _) (fun _ => ?_) rfl
  refine traceSpec_bind (traceSpec_read_u32_pair _) (fun _ => ?_) rfl
  refine traceSpec_bind (traceSpec_read_u32_pair _) (fun _ => ?_) rfl
  exact traceSpec_pure _

theorem read_metrics_commOnly {outlet : Int} (h : ¬ outlet < 1) :
    ErrWithin (read_metrics outlet) (fun e => ∃ a, e = .comm a) := by
  unfold read_metrics
  simp only [bind_def, get_outlet_base_valid h, liftExcept_ok_bind]
  refine errWithin_bind (errWithin_read_u16 ⟨_, rfl⟩) (fun _ => ?_)
  refine errWithin_bind (errWithin_read_u16 ⟨_, rfl⟩) (fun _ => ?_)
  refine errWithin_bind (errWithin_read_u16 ⟨_, rfl⟩) (fun _ => ?_)
  refine errWithin_bind (errWithin_read_u16 ⟨_, rfl⟩) (fun _ => ?_)
  refine errWithin_bind (errWithin_read_u16 ⟨_, rfl⟩) (fun _ => ?_)
  refine errWithin_bind (errWithin_read_three_u32 ⟨_, rfl⟩) (fun _ => ?_)
  refine errWithin_bind (errWithin_read_three_u32 ⟨_, rfl⟩) (fun _ => ?_)
  refine errWithin_bind (errWithin_read_u32_pair ⟨_, rfl⟩) (fun _ => ?_)
  refine errWithin_bind (errWithin_read_u32_pair ⟨_, rfl⟩) (fun _ => ?_)
  exact errWithin_pure _ _

theorem metricsReadSequence_noWrites (outlet : Int) :
    writesIn (metricsReadSequence outlet) = 0 := by
  simp [metricsReadSequence]

/-! ## Characterization of `set_icmax` -/

/-- The two `ValueError` guards of `set_icmax` (lines 285-288) pass exactly
when the requested amps are 0.0 or within [6.0, 32.0]. -/
theorem validation_iff (amps : Rat) :
    (¬(amps ≠ 0 ∧ amps < 6) ∧ ¬ amps > 32) ↔ (amps = 0 ∨ 6 ≤ amps ∧ amps ≤ 32) := by
  constructor
  · rintro ⟨h1, h2⟩
    rw [not_and] at h1
    by_cases h0 : amps = 0
    · exact Or.inl h0
    · exact Or.inr ⟨not_lt.mp (h1 h0), not_lt.mp h2⟩
  · rintro (h0 | ⟨h6, h32⟩)
    · exact ⟨fun hc => hc.1 h0, by rw [h0]; norm_num⟩
    · exact ⟨fun hc => absurd h6 (not_le.mpr hc.2), not_lt.mpr h32⟩

theorem set_icmax_invalid_amps {outlet : Int} {amps : Rat}
    (h : ¬(amps = 0 ∨ 6 ≤ amps ∧ amps ≤ 32)) (rs : Responses) :
    set_icmax outlet amps rs = (Except.error (.outOfRange amps), rs, []) := by
  have h' := (not_iff_not.mpr (validation_iff amps)).mpr h
  rw [not_and_or] at h'
  unfold set_icmax
  rcases h' with h1 | h2
  · rw [not_not] at h1
    simp [h1]
  · rw [not_not] at h2
    have h1 : ¬(amps ≠ 0 ∧ amps < 6) := fun hc => absurd h2 (not_lt.mpr (le_of_lt (lt_trans hc.2 (by norm_num))))
    simp [h1, h2]

theorem set_icmax_invalid_outlet {outlet : Int} {amps : Rat}
    (ho : outlet < 1) (hv : amps = 0 ∨ 6 ≤ amps ∧ amps ≤ 32) (rs : Responses) :
    set_icmax outlet amps rs = (Except.error .invalidOutlet, rs, []) := by
  obtain ⟨h1, h2⟩ := (validation_iff amps).mpr hv
  unfold set_icmax
  rw [if_neg h1, if_neg h2]
  simp [get_outlet_base, ho]

theorem set_icmax_no_outOfRange {outlet : Int} {amps : Rat}
    (hv : amps = 0 ∨ 6 ≤ amps ∧ amps ≤ 32) :
    ErrWithin (set_icmax outlet amps) (fun e => ∀ q, e ≠ .outOfRange q) := by
  obtain ⟨h1, h2⟩ := (validation_iff amps).mpr hv
  unfold set_icmax
  rw [if_neg h1, if_neg h2]
  simp only [bind_def]
  refine errWithin_bind ?_ (fun base => ?_)
  · intro rs e h
    unfold liftExcept get_outlet_base at h
    by_cases ho : outlet < 1
    · simp only [if_pos ho] at h
      have : Em4Error.invalidOutlet = e := by simpa using h
      intro q
      rw [← this]
      simp
    · simp [if_neg ho] at h
  · refine errWithin_bind (errWithin_read_u16 (by intro q; simp)) (fun _ => ?_)
    refine errWithin_bind (errWithin_read_u16 (by intro q; simp)) (fun _ => ?_)
    refine errWithin_bind (errWithin_read_u16 (by intro q; simp)) (fun _ => ?_)
    refine errWithin_bind (errWithin_read_u16 (by intro q; simp)) (fun _ => ?_)
    refine errWithin_bind (errWithin_read_u16 (by intro q; simp)) (fun _ => ?_)
    refine errWithin_ite _ (errWithin_drvThrow (by intro q; simp)) ?_
    refine errWithin_bind (errWithin_write_u16 (by intro q; simp)) (fun _ => ?_)
    refine errWithin_bind (errWithin_read_u16 (by intro q; simp)) (fun _ => ?_)
    refine errWithin_ite _ ?_ (errWithin_pure _ _)
    refine errWithin_bind (errWithin_write_u16 (by intro q; simp)) (fun _ => ?_)
    refine errWithin_bind (errWithin_read_u16 (by intro q; simp)) (fun _ => ?_)
    exact errWithin_pure _ _

theorem set_icmax_writesLe {outlet : Int} {amps : Rat} :
    WritesLe (set_icmax outlet amps) 2 := by
  unfold set_icmax
  refine writesLe_ite _ (writesLe_mono (writesLe_drvThrow _) (by omega)) ?_
  refine writesLe_ite _ (writesLe_mono (writesLe_drvThrow _) (by omega)) ?_
  simp only [bind_def]
  refine writesLe_bind (a := 0) (b := 2) (writesLe_liftExcept _) (fun base => ?_) (by omega)
  refine writesLe_bind (a := 0) (b := 2) (writesLe_read_u16 _) (fun _ => ?_) (by omega)
  refine writesLe_bind (a := 0) (b := 2) (writesLe_read_u16 _) (fun _ => ?_) (by omega)
  refine writesLe_bind (a := 0) (b := 2) (writesLe_read_u16 _) (fun _ => ?_) (by omega)
  refine writesLe_bind (a := 0) (b := 2) (writesLe_read_u16 _) (fun _ => ?_) (by omega)
  refine writesLe_bind (a := 0) (b := 2) (writesLe_read_u16 _) (fun _ => ?_) (by omega)
  refine writesLe_ite _ (writesLe_mono (writesLe_drvThrow _) (by omega)) ?_
  refine writesLe_bind (a := 1) (b := 1) (writesLe_write_u16 _ _) (fun _ => ?_) (by omega)
  refine writesLe_bind (a := 0) (b := 1) (writesLe_read_u16 _) (fun _ => ?_) (by omega)
  refine writesLe_ite _ ?_ (writesLe_mono (writesLe_pure _) (by omega))
  refine writesLe_bind (a := 1) (b := 0) (writesLe_write_u16 _ _) (fun _ => ?_) (by omega)
  refine writesLe_bind (a := 0) (b := 0) (writesLe_read_u16 _) (fun _ => ?_) (by omega)
  exact writesLe_pure _

theorem set_icmax_run_noRetry {outlet : Int} {amps : Rat} (ir id st icm ic rb1 : Nat)
    (wa : Regs) (rest : Responses)
    (ho : ¬ outlet < 1) (hv : amps = 0 ∨ 6 ≤ amps ∧ amps ≤ 32)
    (hb : ¬ amps > (id : Rat) / 10)
    (hnr : ¬((rb1 : Rat) / 10 ≠ amps ∧ st ∈ ([0x00B1, 0x00B2, 0x00C1, 0x00C2] : List Nat))) :
    set_icmax outlet amps
        (some [ir] :: some [id] :: some [st] :: some [icm] :: some [ic] ::
         some wa :: some [rb1] :: rest) =
      (Except.ok ((rb1 : Rat) / 10), rest,
       icmaxContextReads outlet ++
       [.writeReq (outletBaseAddr outlet + ICMAX_OFFSET) [pyround (amps * 10)],
        .readReq (outletBaseAddr outlet + ICMAX_OFFSET) 1]) := by
  obtain ⟨h1, h2⟩ := (validation_iff amps).mpr hv
  unfold set_icmax
  rw [if_neg h1, if_neg h2]
  simp only [bind_def, get_outlet_base_valid ho, liftExcept_run, bind_run,
    read_u16_run_ok, write_u16_run_some, pure_run]
  rw [if_neg hb]
  simp only [bind_def, bind_run, read_u16_run_ok, write_u16_run_some, pure_run]
  rw [if_neg hnr]
  simp [icmaxContextReads, outletBaseAddr]

theorem set_icmax_run_retry {outlet : Int} {amps : Rat} (ir id st icm ic rb1 rb2 : Nat)
    (wa wa2 : Regs) (rest : Responses)
    (ho : ¬ outlet < 1) (hv : amps = 0 ∨ 6 ≤ amps ∧ amps ≤ 32)
    (hb : ¬ amps > (id : Rat) / 10)
    (hr : (rb1 : Rat) / 10 ≠ amps ∧ st ∈ ([0x00B1, 0x00B2, 0x00C1, 0x00C2] : List Nat)) :
    set_icmax outlet amps
        (some [ir] :: some [id] :: some [st] :: some [icm] :: some [ic] ::
         some wa :: some [rb1] :: some wa2 :: some [rb2] :: rest) =
      (Except.ok ((rb2 : Rat) / 10), rest,
       icmaxContextReads outlet ++
       [.writeReq (outletBaseAddr outlet + ICMAX_OFFSET) [pyround (amps * 10)],
        .readReq (outletBaseAddr outlet + ICMAX_OFFSET) 1,
        .writeReq (outletBaseAddr outlet + ICMAX_OFFSET) [pyround (amps * 10)],
        .readReq (outletBaseAddr outlet + ICMAX_OFFSET) 1]) := by
  obtain ⟨h1, h2⟩ := (validation_iff amps).mpr hv
  unfold set_icmax
  rw [if_neg h1, if_neg h2]
  simp only [bind_def, get_outlet_base_valid ho, liftExcept_run, bind_run,
    read_u16_run_ok, write_u16_run_some, pure_run]
  rw [if_neg hb]
  simp only [bind_def, bind_run, read_u16_run_ok, write_u16_run_some, pure_run]
  rw [if_pos hr]
  simp [icmaxContextReads, outletBaseAddr]

theorem set_icmax_run_retry_writes {outlet : Int} {amps : Rat} (ir id st icm ic rb1 : Nat)
    (wa : Regs) (rest : Responses)
    (ho : ¬ outlet < 1) (hv : amps = 0 ∨ 6 ≤ amps ∧ amps ≤ 32)
    (hb : ¬ amps > (id : Rat) / 10)
    (hr : (rb1 : Rat) / 10 ≠ amps ∧ st ∈ ([0x00B1, 0x00B2, 0x00C1, 0x00C2] : List Nat)) :
    writesIn ((set_icmax outlet amps
        (some [ir] :: some [id] :: some [st] :: some [icm] :: some [ic] ::
         some wa :: some [rb1] :: rest)).2.2) = 2 := by
  obtain ⟨h1, h2⟩ := (validation_iff amps).mpr hv
  unfold set_icmax
  rw [if_neg h1, if_neg h2]
  simp only [bind_def, get_outlet_base_valid ho, liftExcept_run, bind_run,
    read_u16_run_ok, write_u16_run_some, pure_run]
  rw [if_neg hb]
  simp only [bind_def, bind_run, read_u16_run_ok, write_u16_run_some, pure_run]
  rw [if_pos hr]
  rcases rest with _ | ⟨o, rest2⟩
  · simp [writesIn_append]
  · rcases o with _ | regs
    · simp [writesIn_append]
    · have hk : writesIn ((DrvM.bind (read_u16 (outletBaseAddr outlet + ICMAX_OFFSET))
          (fun c2 => DrvM.pure ((c2 : Rat) / 10)) : DrvM Rat) rest2).2.2 = 0 := by
        have := writesLe_bind (a := 0) (b := 0)
          (writesLe_read_u16 (outletBaseAddr outlet + ICMAX_OFFSET))
          (fun _ => writesLe_pure _) (le_refl 0)
          (f := fun c2 : Nat => DrvM.pure ((c2 : Rat) / 10)) rest2
        simpa using this
      simp only [bind_def, bind_run, write_u16_run_some]
      simp [writesIn_append, outletBaseAddr] at hk ⊢
      omega

theorem set_icmax_run_exceeds {outlet : Int} {amps : Rat} (ir id st icm ic : Nat)
    (rest : Responses)
    (ho : ¬ outlet < 1) (hv : amps = 0 ∨ 6 ≤ amps ∧ amps ≤ 32)
    (hb : amps > (id : Rat) / 10) :
    set_icmax outlet amps
        (some [ir] :: some [id] :: some [st] :: some [icm] :: some [ic] :: rest) =
      (Except.error (.exceedsLimit amps ((id : Rat) / 10)), rest,
       icmaxContextReads outlet) := by
  obtain ⟨h1, h2⟩ := (validation_iff amps).mpr hv
  unfold set_icmax
  rw [if_neg h1, if_neg h2]
  simp only [bind_def, get_outlet_base_valid ho, liftExcept_run, bind_run,
    read_u16_run_ok, write_u16_run_some, pure_run]
  rw [if_pos hb]
  simp [icmaxContextReads, outletBaseAddr]

theorem set_icmax_run_proceeds {outlet : Int} {amps : Rat} (ir id st icm ic : Nat)
    (rest : Responses)
    (ho : ¬ outlet < 1) (hv : amps = 0 ∨ 6 ≤ amps ∧ amps ≤ 32)
    (hb : ¬ amps > (id : Rat) / 10) :
    1 ≤ writesIn ((set_icmax outlet amps
        (some [ir] :: some [id] :: some [st] :: some [icm] :: some [ic] :: rest)).2.2) := by
  obtain ⟨h1, h2⟩ := (validation_iff amps).mpr hv
  unfold set_icmax
  rw [if_neg h1, if_neg h2]
  simp only [bind_def, get_outlet_base_valid ho, liftExcept_run, bind_run,
    read_u16_run_ok, write_u16_run_some, pure_run]
  rw [if_neg hb]
  rcases rest with _ | ⟨o, rest2⟩
  · simp [writesIn_append]
  · rcases o with _ | regs
    · simp [writesIn_append]
    · simp only [bind_def, bind_run, write_u16_run_some]
      simp [writesIn_append]

/-- Splitting a value into high and low 16-bit words and recombining them
big-endian recovers the value. -/
theorem combine_split (raw : Nat) :
    combine_u32 (raw >>> 16) (raw &&& 0xFFFF) = raw := by
  unfold combine_u32
  have h2 : raw &&& 0xFFFF = raw % 2 ^ 16 := by
    have h := Nat.and_pow_two_sub_one_eq_mod raw 16
    norm_num at h ⊢
    exact h
  rw [h2, Nat.shiftRight_eq_div_pow, Nat.shiftLeft_eq, Nat.mul_comm,
    ← Nat.mul_add_lt_is_or (Nat.mod_lt _ (by norm_num)) _]
  exact Nat.div_add_mod raw (2 ^ 16)

/-! ## Claims -/

/-- Claim C1: in `set_icmax` a second write+settle+read-back cycle happens
iff the first read-back differs from the requested amps AND the pre-write
status is in {0x00B1, 0x00B2, 0x00C1, 0x00C2}; every execution issues at
most two writes, and outside that status set a mismatch is final. -/
theorem claim_C1_bounded_retry :
    (∀ (outlet : Int) (amps : Rat) (rs : Responses),
        writesIn ((set_icmax outlet amps rs).2.2) ≤ 2)
    ∧ (∀ (outlet : Int) (amps : Rat) (ir id st icm ic rb1 : Nat) (wa : Regs)
        (rest : Responses),
        ¬ outlet < 1 → (amps = 0 ∨ 6 ≤ amps ∧ amps ≤ 32) →
        ¬ amps > (id : Rat) / 10 →
        writesIn ((set_icmax outlet amps
            (some [ir] :: some [id] :: some [st] :: some [icm] :: some [ic] ::
             some wa :: some [rb1] :: rest)).2.2) =
          if (rb1 : Rat) / 10 ≠ amps ∧
              st ∈ ([0x00B1, 0x00B2, 0x00C1, 0x00C2] : List Nat)
          then 2 else 1) := by
  constructor
  · intro outlet amps rs
    exact set_icmax_writesLe rs
  · intro outlet amps ir id st icm ic rb1 wa rest ho hv hb
    by_cases hr : (rb1 : Rat) / 10 ≠ amps ∧
        st ∈ ([0x00B1, 0x00B2, 0x00C1, 0x00C2] : List Nat)
    · rw [if_pos hr]
      exact set_icmax_run_retry_writes ir id st icm ic rb1 wa rest ho hv hb hr
    · rw [if_neg hr, set_icmax_run_noRetry ir id st icm ic rb1 wa rest ho hv hb hr]
      simp [icmaxContextReads, writesIn_append]

theorem claim_C1_witness :
    writesIn ((set_icmax 1 16
        [some [320], some [320], some [0x00C2], some [0], some [0],
         some [], some [0]]).2.2) =
      if ((0 : Nat) : Rat) / 10 ≠ 16 ∧
          (0x00C2 : Nat) ∈ ([0x00B1, 0x00B2, 0x00C1, 0x00C2] : List Nat)
      then 2 else 1 :=
  claim_C1_bounded_retry.2 1 16 320 320 0x00C2 0 0 0 [] []
    (by decide) (Or.inr (by norm_num)) (by norm_num)

/-- Claim C2: whenever validation, the bound check and all transport calls
succeed, `set_icmax` returns the final confirmed value (last read-back raw
divided by 10) and never fails merely because it differs from the request;
the result classification is Exact iff confirmed = amps, DeferredZero iff
confirmed = 0, amps > 0 and the pre-write status was 0x00A1, and Divergent
for any other mismatch. -/
theorem claim_C2_result_outcome :
    (∀ (outlet : Int) (amps : Rat) (ir id st icm ic rb1 rb2 : Nat)
        (wa wa2 : Regs) (rest : Responses),
        ¬ outlet < 1 → (amps = 0 ∨ 6 ≤ amps ∧ amps ≤ 32) →
        ¬ amps > (id : Rat) / 10 →
        (set_icmax outlet amps
            (some [ir] :: some [id] :: some [st] :: some [icm] :: some [ic] ::
             some wa :: some [rb1] :: some wa2 :: some [rb2] :: rest)).1 =
          Except.ok
            (if (rb1 : Rat) / 10 ≠ amps ∧
                st ∈ ([0x00B1, 0x00B2, 0x00C1, 0x00C2] : List Nat)
             then (rb2 : Rat) / 10 else (rb1 : Rat) / 10))
    ∧ (∀ (c a : Rat) (s : Nat),
        (classify_outcome c a s = .exact ↔ c = a)
        ∧ (classify_outcome c a s = .deferredZero ↔ c = 0 ∧ a > 0 ∧ s = 0x00A1)
        ∧ (classify_outcome c a s = .divergent ↔
            c ≠ a ∧ ¬(c = 0 ∧ a > 0 ∧ s = 0x00A1))) := by
  constructor
  · intro outlet amps ir id st icm ic rb1 rb2 wa wa2 rest ho hv hb
    by_cases hr : (rb1 : Rat) / 10 ≠ amps ∧
        st ∈ ([0x00B1, 0x00B2, 0x00C1, 0x00C2] : List Nat)
    · rw [if_pos hr,
        set_icmax_run_retry ir id st icm ic rb1 rb2 wa wa2 rest ho hv hb hr]
    · rw [if_neg hr,
        set_icmax_run_noRetry ir id st icm ic rb1 wa
          (some wa2 :: some [rb2] :: rest) ho hv hb hr]
  · intro c a s
    refine ⟨?_, ?_, ?_⟩
    · unfold classify_outcome
      by_cases h1 : c = a
      · rw [if_pos h1]
        exact ⟨fun _ => h1, fun _ => rfl⟩
      · by_cases h2 : c = 0 ∧ a > 0 ∧ s = 0x00A1
        · rw [if_neg h1, if_pos h2]
          exact ⟨fun h => absurd h (by decide), fun hca => absurd hca h1⟩
        · rw [if_neg h1, if_neg h2]
          exact ⟨fun h => absurd h (by decide), fun hca => absurd hca h1⟩
    · unfold classify_outcome
      by_cases h1 : c = a
      · rw [if_pos h1]
        constructor
        · intro h
          exact absurd h (by decide)
        · rintro ⟨h0, hp, _⟩
          rw [h1] at h0
          rw [h0] at hp
          exact absurd hp (lt_irrefl 0)
      · by_cases h2 : c = 0 ∧ a > 0 ∧ s = 0x00A1
        · rw [if_neg h1, if_pos h2]
          exact ⟨fun _ => h2, fun _ => rfl⟩
        · rw [if_neg h1, if_neg h2]
          exact ⟨fun h => absurd h (by decide), fun hc => absurd hc h2⟩
    · unfold classify_outcome
      by_cases h1 : c = a
      · rw [if_pos h1]
        exact ⟨fun h => absurd h (by decide), fun hc => absurd h1 hc.1⟩
      · by_cases h2 : c = 0 ∧ a > 0 ∧ s = 0x00A1
        · rw [if_neg h1, if_pos h2]
          exact ⟨fun h => absurd h (by decide), fun hc => absurd h2 hc.2⟩
        · rw [if_neg h1, if_neg h2]
          exact ⟨fun _ => ⟨h1, h2⟩, fun _ => rfl⟩

theorem claim_C2_witness :
    (set_icmax 1 16
        [some [320], some [320], some [0x00A1], some [0], some [0],
         some [], some [0], some [], some [0]]).1 =
      Except.ok
        (if ((0 : Nat) : Rat) / 10 ≠ 16 ∧
            (0x00A1 : Nat) ∈ ([0x00B1, 0x00B2, 0x00C1, 0x00C2] : List Nat)
         then ((0 : Nat) : Rat) / 10 else ((0 : Nat) : Rat) / 10) :=
  claim_C2_result_outcome.1 1 16 320 320 0x00A1 0 0 0 0 [] [] []
    (by decide) (Or.inr (by norm_num)) (by norm_num)

/-- Claim C3: `set_icmax` fails with OutOfRange exactly when the requested
amps are neither 0.0 nor in [6.0, 32.0]; the rejection happens before any
transport I/O (nothing consumed, empty trace), and amps that pass
validation can never produce an OutOfRange failure. -/
theorem claim_C3_out_of_range :
    ∀ (outlet : Int) (amps : Rat) (rs : Responses),
      (¬(amps = 0 ∨ 6 ≤ amps ∧ amps ≤ 32) →
        set_icmax outlet amps rs = (Except.error (.outOfRange amps), rs, []))
      ∧ ((amps = 0 ∨ 6 ≤ amps ∧ amps ≤ 32) →
        ∀ e, (set_icmax outlet amps rs).1 = Except.error e →
          ∀ q, e ≠ .outOfRange q) := by
  intro outlet amps rs
  exact ⟨fun h => set_icmax_invalid_amps h rs,
    fun hv e he => set_icmax_no_outOfRange hv rs e he⟩

theorem claim_C3_witness :
    (set_icmax 1 3 [] = (Except.error (.outOfRange 3), [], []))
    ∧ (set_icmax 1 (59 / 10 : Rat) [] =
        (Except.error (.outOfRange (59 / 10 : Rat)), [], []))
    ∧ (set_icmax 1 (321 / 10 : Rat) [] =
        (Except.error (.outOfRange (321 / 10 : Rat)), [], []))
    ∧ (set_icmax 1 (-1 : Rat) [] = (Except.error (.outOfRange (-1 : Rat)), [], [])) :=
  ⟨(claim_C3_out_of_range 1 3 []).1 (by norm_num),
   (claim_C3_out_of_range 1 (59 / 10) []).1 (by norm_num),
   (claim_C3_out_of_range 1 (321 / 10) []).1 (by norm_num),
   (claim_C3_out_of_range 1 (-1) []).1 (by norm_num)⟩

/-- Claim C4: with the installation default limit read as `id` raw
(id/10 amps), requesting more than the limit fails with
ExceedsInstallationLimit after the five context reads and issues no write;
requesting exactly the limit proceeds to the write. -/
theorem claim_C4_installation_limit :
    ∀ (outlet : Int) (amps : Rat) (ir id st icm ic : Nat) (rest : Responses),
      ¬ outlet < 1 → (amps = 0 ∨ 6 ≤ amps ∧ amps ≤ 32) →
      (amps > (id : Rat) / 10 →
        set_icmax outlet amps
            (some [ir] :: some [id] :: some [st] :: some [icm] :: some [ic] :: rest) =
          (Except.error (.exceedsLimit amps ((id : Rat) / 10)), rest,
           icmaxContextReads outlet)
        ∧ writesIn (icmaxContextReads outlet) = 0)
      ∧ (amps = (id : Rat) / 10 →
        1 ≤ writesIn ((set_icmax outlet amps
            (some [ir] :: some [id] :: some [st] :: some [icm] :: some [ic] ::
             rest)).2.2)) := by
  intro outlet amps ir id st icm ic rest ho hv
  constructor
  · intro hb
    exact ⟨set_icmax_run_exceeds ir id st icm ic rest ho hv hb,
      by simp [icmaxContextReads]⟩
  · intro heq
    exact set_icmax_run_proceeds ir id st icm ic rest ho hv
      (by rw [heq]; exact gt_irrefl _)

theorem claim_C4_witness :
    (set_icmax 1 20 [some [320], some [160], some [0x00A1], some [0], some [0]] =
      (Except.error (.exceedsLimit 20 (((160 : Nat) : Rat) / 10)), [],
       icmaxContextReads 1))
    ∧ 1 ≤ writesIn ((set_icmax 1 16
        [some [320], some [160], some [0x00A1], some [0], some [0]]).2.2) :=
  ⟨((claim_C4_installation_limit 1 20 320 160 0x00A1 0 0 []
      (by decide) (Or.inr (by norm_num))).1 (by norm_num)).1,
   (claim_C4_installation_limit 1 16 320 160 0x00A1 0 0 []
      (by decide) (Or.inr (by norm_num))).2 (by norm_num)⟩

/-- Claim C5: `read_metrics` is all-or-nothing: it performs at most the
fixed sequence of nine reads, a successful call performs exactly all nine,
any failing call (for a valid outlet) returns a communication failure
rather than a partial snapshot, and a transport failing on the 4th of the
nine reads fails the whole call. -/
theorem claim_C5_all_or_nothing :
    (∀ (outlet : Int) (rs : Responses), 1 ≤ outlet →
      (∃ t, (read_metrics outlet rs).2.2 ++ t = metricsReadSequence outlet)
      ∧ (∀ snap, (read_metrics outlet rs).1 = Except.ok snap →
          (read_metrics outlet rs).2.2 = metricsReadSequence outlet)
      ∧ (∀ e, (read_metrics outlet rs).1 = Except.error e → ∃ a, e = .comm a))
    ∧ (read_metrics 1 [some [320], some [160], some [0x00A1], none]).1 =
        Except.error (.comm (OUTLET_BASE + ICMAX_OFFSET)) := by
  constructor
  · intro outlet rs h
    have h' : ¬ outlet < 1 := not_lt.mpr h
    exact ⟨(read_metrics_traceSpec h' rs).1, (read_metrics_traceSpec h' rs).2,
      fun e he => read_metrics_commOnly h' rs e he⟩
  · rfl

theorem claim_C5_witness :
    ∃ t, (read_metrics 1
        [some [320], some [160], some [0x00C2], some [160], some [160],
         some [0, 1, 0, 2, 0, 3], some [0, 230, 0, 231, 0, 232],
         some [0, 3680], some [0, 1234]]).2.2 ++ t = metricsReadSequence 1 :=
  (claim_C5_all_or_nothing.1 1
    [some [320], some [160], some [0x00C2], some [160], some [160],
     some [0, 1, 0, 2, 0, 3], some [0, 230, 0, 231, 0, 232],
     some [0, 3680], some [0, 1234]] (by decide)).1

/-- Claim C6 counterexample: a single-register read whose response contains
two registers does not fail — it succeeds and returns the first register,
so `read_u16` does not require exactly the requested register count. -/
theorem claim_C6_counterexample :
    (read_u16 0x0123 [some [7, 9]]).1 = Except.ok 7
    ∧ ∀ e, (read_u16 0x0123 [some [7, 9]]).1 ≠ Except.error e := by
  constructor
  · rfl
  · intro e h
    simp [read_u16, issueRead] at h

/-- Claim C6 amended: a single-register read fails only when the transport
reports an error or returns zero registers, and otherwise returns the first
register of the response (extra registers are ignored); 2-register reads
fail unless exactly 2 registers come back and 6-register reads unless
exactly 6. -/
theorem claim_C6_amended :
    (∀ (a : Int) (r : Nat) (tl : Regs) (rest : Responses),
        (read_u16 a (some (r :: tl) :: rest)).1 = Except.ok r)
    ∧ (∀ (a : Int) (rest : Responses),
        (read_u16 a (some [] :: rest)).1 = Except.error (.comm a))
    ∧ (∀ (a : Int) (rest : Responses),
        (read_u16 a (none :: rest)).1 = Except.error (.comm a))
    ∧ (∀ (a : Int) (regs : Regs) (rest : Responses), regs.length ≠ 2 →
        (read_u32_pair a (some regs :: rest)).1 = Except.error (.comm a))
    ∧ (∀ (a : Int) (hi lo : Nat) (rest : Responses),
        (read_u32_pair a (some [hi, lo] :: rest)).1 =
          Except.ok ((hi <<< 16) ||| lo))
    ∧ (∀ (a : Int) (regs : Regs) (rest : Responses), regs.length ≠ 6 →
        (read_three_u32 a (some regs :: rest)).1 = Except.error (.comm a))
    ∧ (∀ (a : Int) (r1 r2 r3 r4 r5 r6 : Nat) (rest : Responses),
        (read_three_u32 a (some [r1, r2, r3, r4, r5, r6] :: rest)).1 =
          Except.ok ((r1 <<< 16) ||| r2, (r3 <<< 16) ||| r4, (r5 <<< 16) ||| r6)) := by
  refine ⟨fun a r tl rest => rfl, fun a rest => rfl, fun a rest => rfl,
    ?_, fun a hi lo rest => rfl, ?_, fun a r1 r2 r3 r4 r5 r6 rest => rfl⟩
  · intro a regs rest h
    rcases regs with _ | ⟨x, _ | ⟨y, _ | tl⟩⟩
    · rfl
    · rfl
    · simp at h
    · rfl
  · intro a regs rest h
    rcases regs with _ | ⟨x1, _ | ⟨x2, _ | ⟨x3, _ | ⟨x4, _ | ⟨x5, _ | ⟨x6, _ | tl⟩⟩⟩⟩⟩⟩
    · rfl
    · rfl
    · rfl
    · rfl
    · rfl
    · rfl
    · simp at h
    · rfl

theorem claim_C6_witness :
    (read_u32_pair 5 [some [1, 2, 3]]).1 = Except.error (.comm 5) :=
  claim_C6_amended.2.2.2.1 5 [1, 2, 3] [] (by decide)

/-- Claim C7: `get_outlet_base` maps outlet n ≥ 1 to 0x3000 + 0x0100*(n-1)
(so outlet 1 ↦ 0x3000 and outlet 2 ↦ 0x3100), fails with InvalidOutlet for
every outlet < 1, and in both `read_metrics` and `set_icmax` that rejection
happens before any transport I/O. -/
theorem claim_C7_outlet_base :
    (∀ outlet : Int, 1 ≤ outlet →
        get_outlet_base outlet = Except.ok (0x3000 + 0x0100 * (outlet - 1)))
    ∧ get_outlet_base 1 = Except.ok 0x3000
    ∧ get_outlet_base 2 = Except.ok 0x3100
    ∧ (∀ outlet : Int, outlet < 1 →
        get_outlet_base outlet = Except.error .invalidOutlet)
    ∧ (∀ (outlet : Int) (rs : Responses), outlet < 1 →
        read_metrics outlet rs = (Except.error .invalidOutlet, rs, []))
    ∧ (∀ (outlet : Int) (amps : Rat) (rs : Responses), outlet < 1 →
        (amps = 0 ∨ 6 ≤ amps ∧ amps ≤ 32) →
        set_icmax outlet amps rs = (Except.error .invalidOutlet, rs, [])) := by
  refine ⟨?_, rfl, rfl, ?_, ?_, ?_⟩
  · intro outlet h
    rw [get_outlet_base_valid (not_lt.mpr h)]
    rfl
  · intro outlet h
    simp [get_outlet_base, h]
  · intro outlet rs h
    exact read_metrics_invalid h rs
  · intro outlet amps rs h hv
    exact set_icmax_invalid_outlet h hv rs

theorem claim_C7_witness :
    get_outlet_base 3 = Except.ok (0x3000 + 0x0100 * ((3 : Int) - 1))
    ∧ get_outlet_base 0 = Except.error .invalidOutlet
    ∧ read_metrics (-2) [some [1]] = (Except.error .invalidOutlet, [some [1]], [])
    ∧ set_icmax 0 16 [some [1]] = (Except.error .invalidOutlet, [some [1]], []) :=
  ⟨claim_C7_outlet_base.1 3 (by decide),
   claim_C7_outlet_base.2.2.2.1 0 (by decide),
   claim_C7_outlet_base.2.2.2.2.1 (-2) [some [1]] (by decide),
   claim_C7_outlet_base.2.2.2.2.2 0 16 [some [1]] (by decide) (Or.inr (by norm_num))⟩

/-- Claim C8: for 16-bit words hi, lo and any positive scale,
`decode32 hi lo scale = ((hi <<< 16) ||| lo) / scale` (first register is
the high half), and splitting any 32-bit value into hi = raw >>> 16,
lo = raw &&& 0xFFFF and recombining recovers raw exactly. -/
theorem claim_C8_decode32 :
    (∀ hi lo : Nat, hi < 2 ^ 16 → lo < 2 ^ 16 → ∀ scale : Rat, scale > 0 →
        decode32 hi lo scale = (((hi <<< 16) ||| lo : Nat) : Rat) / scale)
    ∧ (∀ raw : Nat, raw < 2 ^ 32 →
        combine_u32 (raw >>> 16) (raw &&& 0xFFFF) = raw) := by
  constructor
  · intro hi lo _ _ scale _
    rfl
  · intro raw _
    exact combine_split raw

theorem claim_C8_witness :
    combine_u32 (0xDEADBEEF >>> 16) (0xDEADBEEF &&& 0xFFFF) = 0xDEADBEEF
    ∧ decode32 1 2 10 = (((1 <<< 16) ||| 2 : Nat) : Rat) / 10 :=
  ⟨claim_C8_decode32.2 0xDEADBEEF (by norm_num),
   claim_C8_decode32.1 1 2 (by norm_num) (by norm_num) 10 (by norm_num)⟩

/-- Claim C9: status decoding is total: every code present in
`STATUS_CODES` yields its documented text and every unmapped code yields
the formatted unknown string carrying the code's 4-digit uppercase hex;
every code with `(code &&& 0x00F0) = 0x00F0` (such as 0x00F5) classifies
as the error state, and 0x0099 yields an unknown text with its hex value. -/
theorem claim_C9_status_text :
    (∀ code t, STATUS_CODES code = some t → statusTextOf code = t)
    ∧ (∀ code, STATUS_CODES code = none → statusTextOf code = unknownStatus code)
    ∧ (∀ code : Nat, code &&& 0x00F0 = 0x00F0 → classify_status code = .errorState)
    ∧ statusTextOf 0x00F5 = "Error"
    ∧ ((0x00F5 : Nat) &&& 0x00F0 = 0x00F0)
    ∧ STATUS_CODES 0x0099 = none
    ∧ statusTextOf 0x0099 = "Unknown (0x0099)" := by
  refine ⟨?_, ?_, ?_, by decide, by decide, by decide, by decide⟩
  · intro code t h
    simp [statusTextOf, h]
  · intro code h
    simp [statusTextOf, h]
  · intro code h
    have h1 : code ≠ 0x00A1 := by
      rintro rfl
      exact absurd h (by decide)
    have h2 : code ∉ ([0x00A0, 0x00E0] : List Nat) := by
      intro hm
      simp only [List.mem_cons, List.mem_singleton, List.not_mem_nil] at hm
      rcases hm with rfl | rfl | hm
      · exact absurd h (by decide)
      · exact absurd h (by decide)
      · exact hm
    have h3 : code ≠ 0x00E2 := by
      rintro rfl
      exact absurd h (by decide)
    simp [classify_status, h1, h2, h3, h]

theorem claim_C9_witness :
    statusTextOf 0x00B2 = "Outlet can provide energy for charging" :=
  claim_C9_status_text.1 0x00B2 "Outlet can provide energy for charging" rfl

/-- Claim C10: `read_metrics` is read-only with respect to the device: its
transport trace never contains a write request, for any outlet and any
transport behavior. -/
theorem claim_C10_read_only :
    ∀ (outlet : Int) (rs : Responses),
      writesIn ((read_metrics outlet rs).2.2) = 0 := by
  intro outlet rs
  by_cases h : outlet < 1
  · rw [read_metrics_invalid h]
    rfl
  · obtain ⟨t, ht⟩ := (read_metrics_traceSpec h rs).1
    have hz := metricsReadSequence_noWrites outlet
    rw [← ht, writesIn_append] at hz
    omega

end EM4
